import Mathlib

/-!
Verification development for the db-filters query-generation library.

The definitions below are a shallow embedding of the JavaScript sources:
  * lib/operator_base.js (the variant with the require_group flag),
    lib/functions.js, lib/conditionals.js  — the operator expression tree;
  * db-filters.js (the variant that loads ./operators and ./queries,
    lines 2121-2550 of the concatenated source) — the db filter class:
    process / decode_filter / escapeKey / handle_type / handle_date /
    handle_datetime / clone;
  * lib/queries.js — the query builder classes.

JavaScript runtime facts that the code leans on are modelled explicitly:
  * mysql.escape / mysql.escapeId follow the sqlstring package;
  * numeric parsing follows the ES parseInt algorithm;
  * host behaviour of the Date constructor and of Date.prototype.toString
    is timezone dependent, so it is kept as a parameter (Env);
  * code paths that dereference undefined identifiers or call abstract
    methods are modelled in an Except monad.
-/

namespace DbFilters

/-- A JavaScript Date object, reduced to the accessors the source calls:
getFullYear, getMonth (0-based), getDate, getHours, getMinutes, getSeconds. -/
structure JSDate where
  year : Int
  month : Nat
  day : Nat
  hours : Nat
  minutes : Nat
  seconds : Nat
deriving Repr, DecidableEq

/-- The single-quote character, written via its code point. -/
def sq : Char := Char.ofNat 39

/-- The single-quote as a one-character string. -/
def sqs : String := String.singleton sq

/-- One character of the sqlstring escape map (CHARS_ESCAPE_MAP): the
characters NUL, backspace, tab, newline, carriage return, ctrl-Z, double
quote, single quote and backslash are replaced by backslash escapes. -/
def sqlEscapeChar (c : Char) : String :=
  if c = Char.ofNat 0 then "\\0"
  else if c = Char.ofNat 8 then "\\b"
  else if c = Char.ofNat 9 then "\\t"
  else if c = Char.ofNat 10 then "\\n"
  else if c = Char.ofNat 13 then "\\r"
  else if c = Char.ofNat 26 then "\\Z"
  else if c = Char.ofNat 34 then "\\" ++ String.singleton (Char.ofNat 34)
  else if c = sq then "\\" ++ sqs
  else if c = '\\' then "\\\\"
  else String.singleton c

/-- Body of sqlstring escapeString: apply the escape map to every character. -/
def sqlEscapeBody (s : String) : String :=
  String.join (s.data.map sqlEscapeChar)

/-- mysql.escape applied to a string value: the escaped body wrapped in
single quotes. -/
def mysqlEscapeString (s : String) : String :=
  sqs ++ sqlEscapeBody s ++ sqs

/-- Body of sqlstring escapeId: double every backtick and turn every dot
into a quoted qualifier separator. -/
def escapeIdChar (c : Char) : String :=
  if c = Char.ofNat 96 then "``"
  else if c = '.' then "`.`"
  else String.singleton c

/-- mysql.escapeId: identifier quoting with backticks. -/
def escapeId (s : String) : String :=
  "`" ++ String.join (s.data.map escapeIdChar) ++ "`"

/-- Characters the ES parseInt algorithm skips as leading whitespace. -/
def isJsWs (c : Char) : Bool :=
  c = ' ' || c = Char.ofNat 9 || c = Char.ofNat 10 || c = Char.ofNat 13 ||
  c = Char.ofNat 11 || c = Char.ofNat 12

/-- Value of a decimal digit character, if it is one. -/
def decDigit (c : Char) : Option Nat :=
  if c.isDigit then some (c.toNat - 48) else none

/-- Value of a hexadecimal digit character, if it is one. -/
def hexDigit (c : Char) : Option Nat :=
  if c.isDigit then some (c.toNat - 48)
  else if 97 ≤ c.toNat ∧ c.toNat ≤ 102 then some (c.toNat - 87)
  else if 65 ≤ c.toNat ∧ c.toNat ≤ 70 then some (c.toNat - 55)
  else none

/-- Read the longest digit prefix of a character list in the given base;
none when there is no digit at all (parseInt then yields NaN). -/
def parseDigits (dig : Char → Option Nat) (base : Nat) (cs : List Char) : Option Nat :=
  let ds := cs.takeWhile (fun c => (dig c).isSome)
  if ds.isEmpty then none
  else some (ds.foldl (fun acc c => acc * base + ((dig c).getD 0)) 0)

/-- The unsigned part of the ES parseInt algorithm with no explicit radix:
a 0x or 0X prefix selects base 16, otherwise the decimal digit prefix is
read. -/
def parseIntCore : List Char → Option Nat
  | '0' :: 'x' :: rest => parseDigits hexDigit 16 rest
  | '0' :: 'X' :: rest => parseDigits hexDigit 16 rest
  | cs => parseDigits decDigit 10 cs

/-- ES parseInt on a string (radix argument absent): skip whitespace, read
an optional sign, then the digit prefix; none models NaN. -/
def parseIntStr (s : String) : Option Int :=
  match s.data.dropWhile isJsWs with
  | '-' :: rest => (parseIntCore rest).map (fun n => -(n : Int))
  | '+' :: rest => (parseIntCore rest).map (fun n => (n : Int))
  | cs => (parseIntCore cs).map (fun n => (n : Int))

mutual

/-- A JavaScript value as it can appear in a filter object or as an operand
of an operator node.  The likeObj constructor is an instance of the Like
wrapper class (db-filters.js line 491: a plain object with a source
property).  The regexp constructor keeps the pattern source; regex flags
are not modelled (no claim involves them). -/
inductive JSVal where
  | str (s : String)
  | num (n : Int)
  | jsBool (b : Bool)
  | null
  | undef
  | date (d : JSDate)
  | regexp (source : String)
  | likeObj (source : String)
  | arr (xs : List JSVal)
  | node (o : OpNode)

/-- An operator node.  One constructor per concrete class:
  * binCond — BinaryCondition(name, fn, value, rval) of lib/conditionals.js;
    rval is the optional second operand (undefined when absent);
  * binCondFree — BinaryConditionFree(name, fn, lval, rval);
  * arrayCond — ArrayCondition(name, rval, inv, lval); the factories pass
    the operand list either as lval (one-argument form, rval undefined) or
    as rval (two-argument form); rvalOpt = some list models the latter and
    the list-typed field records that a defined rval is used as an array;
  * regexCond / likeCond — RegexCondition / LikeCondition(name, pattern, inv);
  * rawFn / fieldFn — RawFunction(str) / FieldFunction(field) of
    operator_base.js;
  * nullaryFn / unaryFn / binaryFn — the function classes of functions.js;
  * binArith — BinaryInfixOperator(name, fn, field, val) of functions.js
    (its constructor sets require_group = true);
  * orderFn — OrderFunction(name, fn, field) of operators.js. -/
inductive OpNode where
  | binCond (name fn : String) (value : JSVal) (rvalOpt : Option JSVal)
  | binCondFree (name fn : String) (lval rval : JSVal)
  | arrayCond (name : String) (rvalOpt : Option (List JSVal)) (invert : Bool) (lval : JSVal)
  | regexCond (name : String) (pattern : JSVal) (invert : Bool)
  | likeCond (name : String) (pattern : JSVal) (invert : Bool)
  | rawFn (str : String)
  | fieldFn (field : Option JSVal)
  | nullaryFn (name fn : String)
  | unaryFn (name fn : String) (value : Option JSVal)
  | binaryFn (name fn : String) (field : Option JSVal) (value : JSVal) (argOrder : Nat)
  | binArith (name fn : String) (field : Option JSVal) (value : JSVal)
  | orderFn (name fn : String) (field : JSVal)

end

/-- Host behaviour left abstract: the Date constructor applied to an
arbitrary value (new Date(x)), and Date.prototype.toString, both of which
are timezone and locale dependent. -/
structure Env where
  newDate : JSVal → JSDate
  dateToString : JSDate → String

/-- The require_group flag of an operator instance.  The Operator base
constructor sets it to false and only the BinaryInfixOperator constructor
overwrites it with true; no other code assigns it. -/
def OpNode.require_group : OpNode → Bool
  | .binArith _ _ _ _ => true
  | _ => false

/-- Whether a node is an instance of the Conditional base class of
lib/conditionals.js (the five conditional classes derive from it). -/
def OpNode.isConditional : OpNode → Bool
  | .binCond _ _ _ _ => true
  | .binCondFree _ _ _ _ => true
  | .arrayCond _ _ _ _ => true
  | .regexCond _ _ _ => true
  | .likeCond _ _ _ => true
  | _ => false

/-- Whether a node is an instance of RawFunction. -/
def OpNode.isRawFunction : OpNode → Bool
  | .rawFn _ => true
  | _ => false

/-- Whether a value is an Operator instance. -/
def JSVal.isNode : JSVal → Bool
  | .node _ => true
  | _ => false

/-- Whether a value is a Date instance. -/
def JSVal.isDate : JSVal → Bool
  | .date _ => true
  | _ => false

mutual

/-- JS ToString of a value.  Arrays join their elements with a comma; plain
objects (operator nodes and Like wrappers) print as [object Object]; the
Date case uses the host toString from Env. -/
def jsToString (env : Env) : JSVal → String
  | .str s => s
  | .num n => toString n
  | .jsBool b => if b then "true" else "false"
  | .null => "null"
  | .undef => "undefined"
  | .date d => env.dateToString d
  | .regexp src => "/" ++ src ++ "/"
  | .likeObj _ => "[object Object]"
  | .node _ => "[object Object]"
  | .arr xs => String.intercalate "," (jsArrToStrings env xs)
termination_by structural v => v

/-- Element conversions of Array.prototype.join: null and undefined become
the empty string, every other element goes through ToString. -/
def jsArrToStrings (env : Env) : List JSVal → List String
  | [] => []
  | .null :: rest => "" :: jsArrToStrings env rest
  | .undef :: rest => "" :: jsArrToStrings env rest
  | v :: rest => jsToString env v :: jsArrToStrings env rest
termination_by structural xs => xs

end

/-- JS loose equality of a value against a string literal, as used by the
token checks in handle_date and handle_datetime and by the wildcard check
in escapeKey.  Strings compare directly; arrays and dates compare through
ToPrimitive (their string conversion); numbers, booleans, null and
undefined can never loosely equal the non-numeric literals involved
(CURDATE(), NOW(), *), which is what false models; plain objects convert
to [object Object]. -/
def jsLooseEqStr (env : Env) (v : JSVal) (lit : String) : Bool :=
  match v with
  | .str s => s = lit
  | .arr _ => jsToString env v = lit
  | .date d => env.dateToString d = lit
  | .regexp src => ("/" ++ src ++ "/") = lit
  | .likeObj _ => "[object Object]" = lit
  | .node _ => "[object Object]" = lit
  | .num _ => false
  | .jsBool _ => false
  | .null => false
  | .undef => false

/-- Zero-pad a number to two digits, as sqlstring does for dates. -/
def pad2 (n : Nat) : String := if n < 10 then "0" ++ toString n else toString n

mutual

/-- mysql.escape (sqlstring escape) of a value.  Strings are quoted and
escaped; numbers and booleans print bare; null and undefined give NULL;
arrays go through arrayToList; a Like wrapper object goes through
objectToValues over its single enumerable property source; a RegExp
object has no enumerable own properties so objectToValues yields the
empty string; Date values use the sqlstring date format (not exercised
by any claim; milliseconds are not modelled and print as 000).  Operator
nodes never reach this function from the embedded call sites (eval guards
with instanceof Operator first), so their objectToValues expansion is not
modelled and the empty string stands in. -/
def mysqlEscape (env : Env) : JSVal → String
  | .str s => mysqlEscapeString s
  | .num n => toString n
  | .jsBool b => if b then "true" else "false"
  | .null => "NULL"
  | .undef => "NULL"
  | .date d =>
      sqs ++ toString d.year ++ "-" ++ pad2 (d.month + 1) ++ "-" ++ pad2 d.day ++ " " ++
        pad2 d.hours ++ ":" ++ pad2 d.minutes ++ ":" ++ pad2 d.seconds ++ ".000" ++ sqs
  | .likeObj src => "`source` = " ++ mysqlEscapeString src
  | .regexp _ => ""
  | .node _ => ""
  | .arr xs => String.intercalate ", " (arrayToList env xs)
termination_by structural v => v

/-- sqlstring arrayToList: escape each element, parenthesizing nested
arrays, and collect the pieces (the caller joins them with a comma). -/
def arrayToList (env : Env) : List JSVal → List String
  | [] => []
  | .arr ys :: rest =>
      ("(" ++ String.intercalate ", " (arrayToList env ys) ++ ")") :: arrayToList env rest
  | v :: rest => mysqlEscape env v :: arrayToList env rest
termination_by structural xs => xs

end

/-- A column type declaration.  In the source these are the numeric
constants int_t = 1, date_t = 2, datetime_t = timestamp_t = 3 and
text_t = 5, or a two-element array [varchar_t, len] / [char_t, len]
(varchar_t = 4, char_t = 6); the inductive carries the length for the
array forms. -/
inductive ColType where
  | int_t
  | date_t
  | datetime_t
  | varchar_t (len : Nat)
  | char_t (len : Nat)
  | text_t
deriving Repr, DecidableEq

/-- The resolution options record threaded through compilation:
useName — qualify column references with the table name; aliasName — the
alias option of the source, printed instead of the table name when non
empty.  An absent alias is the empty string. -/
structure Options where
  useName : Bool := false
  aliasName : String := ""
deriving Repr, DecidableEq

/-- A special-field handler.  The source signature is
(key, value, terms, options) with the filter bound as this and the terms
array mutated in place; here the handler returns the list of terms it
appends.  (The this binding is not modelled; no claim depends on a
handler reading its filter.) -/
def Handler : Type := String → JSVal → Options → List String

/-- The db filter class (db-filters.js): table name, column type
declarations, special-field handlers, plus the execution-time state the
constructor initializes (query statistics and the connection handle). -/
structure Filter where
  table : String
  columns : List (String × ColType)
  special : List (String × Handler)
  queries : List (String × Nat) := []
  conn : Option Unit := none

/-- The db constructor (db-filters.js lines 2150-2157): missing columns or
special arguments fall back to empty maps, and the execution-time state
starts empty. -/
def dbNew (table : String) (columns : Option (List (String × ColType)))
    (special : Option (List (String × Handler))) : Filter :=
  { table := table
  , columns := columns.getD []
  , special := special.getD []
  , queries := []
  , conn := none }

/-- db.prototype.clone (db-filters.js lines 2286-2288):
new db(this.table, this.cols, this.special).  The source reads this.cols,
a property that no code ever assigns (the constructor stores the column
map in this.columns), so the constructor receives undefined for its
columns argument. -/
def Filter.clone (f : Filter) : Filter :=
  dbNew f.table none (some f.special)

/-- Property lookup this.columns[col].  A JS property access stringifies
the key; compilation can pass operator nodes through the col position
(they stringify to [object Object], which no real schema declares, so the
lookup then misses). -/
def colTypeLookup (env : Env) (f : Filter) (col : JSVal) : Option ColType :=
  (f.columns.find? (fun p => p.1 = jsToString env col)).map (fun p => p.2)

/-- Lookup of a special-field handler: this.special[key]. -/
def specialLookup (f : Filter) (key : String) : Option Handler :=
  (f.special.find? (fun p => p.1 = key)).map (fun p => p.2)

/-- The date format of db.prototype.handle_date:
getFullYear() + - + (getMonth()+1) + - + getDate(), with no zero
padding. -/
def fmtYMD (d : JSDate) : String :=
  toString d.year ++ "-" ++ toString (d.month + 1) ++ "-" ++ toString d.day

/-- The time-of-day format appended by db.prototype.handle_datetime:
getHours() + : + getMinutes() + : + getSeconds(), with no zero padding. -/
def fmtHMS (d : JSDate) : String :=
  toString d.hours ++ ":" ++ toString d.minutes ++ ":" ++ toString d.seconds

/-- db.prototype.handle_date restricted to an argument that is already a
Date object: the source re-checks the passthrough tokens first (a Date
can only loosely equal them through its toString) and then formats. -/
def handle_date_on_date (env : Env) (d : JSDate) : String :=
  if env.dateToString d = "CURDATE()" ∨ env.dateToString d = "CURRENT_DATE()" then
    env.dateToString d
  else
    fmtYMD d

/-- db.prototype.handle_date (db-filters.js lines 2520-2528).  The token
checks use JS loose equality; a Date argument is formatted as
year-month-day; any other argument is passed to new Date and the function
recurses, which immediately lands in the Date case (the recursion is
unrolled into handle_date_on_date).  The returned value flows into string
concatenation, so the verbatim token case returns the ToString of the
original value (for a string token that is the token itself). -/
def handle_date (env : Env) (date : JSVal) : String :=
  if jsLooseEqStr env date "CURDATE()" ∨ jsLooseEqStr env date "CURRENT_DATE()" then
    jsToString env date
  else
    match date with
    | .date d => fmtYMD d
    | v => handle_date_on_date env (env.newDate v)

/-- db.prototype.handle_datetime restricted to a Date argument, with the
same one-step unrolling as handle_date_on_date. -/
def handle_datetime_on_date (env : Env) (d : JSDate) : String :=
  if env.dateToString d = "NOW()" then
    env.dateToString d
  else
    handle_date (env) (.date d) ++ " " ++ fmtHMS d

/-- db.prototype.handle_datetime (db-filters.js lines 2537-2545): the
verbatim token is NOW(); a Date argument is formatted as the handle_date
text followed by hours:minutes:seconds; anything else goes through new
Date. -/
def handle_datetime (env : Env) (date : JSVal) : String :=
  if jsLooseEqStr env date "NOW()" then
    jsToString env date
  else
    match date with
    | .date d => handle_date env (.date d) ++ " " ++ fmtHMS d
    | v => handle_datetime_on_date env (env.newDate v)

/-- parseInt applied to a JS value: the argument is first converted to a
string. -/
def parseIntVal (env : Env) (v : JSVal) : Option Int :=
  parseIntStr (jsToString env v)

/-- db.prototype.handle_type (db-filters.js lines 2495-2511): declared
integer columns parse the value with parseInt, falling back to 0 (the
|| 0 also maps a parsed 0 to the same 0); declared date and datetime
columns delegate to the date converters; varchar and char columns
stringify, truncate to the declared length and escape; any other case
(text_t, no declaration) escapes the raw value.  The numeric result of
the integer branch reaches the query through string concatenation, hence
its ToString here. -/
def handle_type (env : Env) (f : Filter) (col : JSVal) (value : JSVal) : String :=
  match colTypeLookup env f col with
  | some .int_t =>
      match parseIntVal env value with
      | some n => toString n
      | none => "0"
  | some .date_t => handle_date env value
  | some .datetime_t => handle_datetime env value
  | some (.varchar_t len) => mysqlEscapeString ((jsToString env value).take len)
  | some (.char_t len) => mysqlEscapeString ((jsToString env value).take len)
  | some .text_t => mysqlEscape env value
  | none => mysqlEscape env value

/-- JavaScript exceptions the embedded code can raise: the abstract-method
throws of Operator.prototype.get and Operator.prototype.getField, runtime
TypeErrors, and ReferenceErrors from dereferencing undeclared
identifiers. -/
inductive JsErr where
  | abstractGet
  | abstractGetField
  | typeError (msg : String)
  | referenceError (name : String)
deriving Repr, DecidableEq

mutual

/-- Operator.prototype.get and its overrides, one case per concrete class.
Sources: lib/conditionals.js (BinaryCondition, BinaryConditionFree,
ArrayCondition, RegexCondition, LikeCondition), lib/operator_base.js
(RawFunction, FieldFunction), lib/functions.js (NullaryFunction,
UnaryFunction, BinaryFunction, BinaryInfixOperator).  OrderFunction does
not override get, so it inherits the abstract throw. -/
def OpNode.get (env : Env) (o : OpNode) (key : JSVal) (f : Filter) (opts : Options) :
    Except JsErr String :=
  match o with
  | .binCond name fn value none => do
      let k ← escapeKey env f key opts
      let v ← OpNode.evalv env (.binCond name fn value none) value key f opts
      .ok (k ++ " " ++ fn ++ " " ++ v)
  | .binCond name fn value (some rv) => do
      let l ← OpNode.evalv env (.binCond name fn value (some rv)) value key f opts
      let r ← OpNode.evalv env (.binCond name fn value (some rv)) rv key f opts
      .ok (l ++ " " ++ fn ++ " " ++ r)
  | .binCondFree name fn lval rval => do
      let l ← OpNode.evalv env (.binCondFree name fn lval rval) lval key f opts
      let r ← OpNode.evalv env (.binCondFree name fn lval rval) rval key f opts
      .ok (l ++ " " ++ fn ++ " " ++ r)
  | .arrayCond name none inv (.arr xs) => do
      let l ← escapeKey env f key opts
      let rs ← OpNode.evalList env (.arrayCond name none inv (.arr xs)) xs key f opts
      .ok (l ++ (if inv then " NOT" else "") ++ " IN (" ++ String.intercalate ", " rs ++ ")")
  | .arrayCond _ none _ _ => do
      let _ ← escapeKey env f key opts
      .error (.typeError "this.lval.map is not a function")
  | .arrayCond name (some rs) inv lval => do
      let l ← OpNode.evalv env (.arrayCond name (some rs) inv lval) lval key f opts
      let items ← OpNode.evalList env (.arrayCond name (some rs) inv lval) rs key f opts
      .ok (l ++ (if inv then " NOT" else "") ++ " IN (" ++ String.intercalate ", " items ++ ")")
  | .regexCond _ pattern inv =>
      (escapeKey env f key opts).map (fun k =>
        k ++ (if inv then " NOT" else "") ++ " REGEXP " ++ mysqlEscape env pattern)
  | .likeCond _ pattern inv =>
      (escapeKey env f key opts).map (fun k =>
        k ++ (if inv then " NOT" else "") ++ " LIKE " ++ mysqlEscape env pattern)
  | .rawFn s => .ok s
  | .fieldFn (some fv) => escapeKey env f fv opts
  | .fieldFn none => escapeKey env f key opts
  | .nullaryFn _ fn => .ok (fn ++ "()")
  | .unaryFn _ fn none =>
      (escapeKey env f key opts).map (fun k => fn ++ "(" ++ k ++ ")")
  | .unaryFn name fn (some v) =>
      (OpNode.evalv env (.unaryFn name fn (some v)) v key f opts).map (fun e =>
        fn ++ "(" ++ e ++ ")")
  | .binaryFn name fn (some fv) value argOrder => do
      let v ← OpNode.evalv env (.binaryFn name fn (some fv) value argOrder) value key f opts
      let fld ← escapeKey env f fv opts
      .ok (fn ++ "(" ++ (if argOrder = 0 then fld ++ ", " ++ v else v ++ ", " ++ fld) ++ ")")
  | .binaryFn name fn none value argOrder => do
      let v ← OpNode.evalv env (.binaryFn name fn none value argOrder) value key f opts
      let fld ← escapeKey env f key opts
      .ok (fn ++ "(" ++ (if argOrder = 0 then fld ++ ", " ++ v else v ++ ", " ++ fld) ++ ")")
  | .binArith name fn (some fv) value => do
      let v ← OpNode.evalv env (.binArith name fn (some fv) value) value key f opts
      let fld ← escapeKey env f fv opts
      .ok (fld ++ " " ++ fn ++ " " ++ v)
  | .binArith name fn none value => do
      let v ← OpNode.evalv env (.binArith name fn none value) value key f opts
      let fld ← escapeKey env f key opts
      .ok (fld ++ " " ++ fn ++ " " ++ v)
  | .orderFn _ _ _ => .error .abstractGet
termination_by sizeOf o + sizeOf key

/-- Operator.prototype.eval (lib/operator_base.js lines corresponding to
part_004 404-414): an operand that is itself an Operator is compiled
recursively, and the result is parenthesized exactly when the enclosing
operator (this) carries the require_group flag; any other operand goes
through handle_type keyed by the enclosing column. -/
def OpNode.evalv (env : Env) (this : OpNode) (value key : JSVal) (f : Filter) (opts : Options) :
    Except JsErr String :=
  match value with
  | .node o =>
      (OpNode.get env o key f opts).map (fun r =>
        if this.require_group then "(" ++ r ++ ")" else r)
  | v => .ok (handle_type env f key v)
termination_by sizeOf value + sizeOf key

/-- Operator.prototype.getField and its overrides.  RawFunction returns its
string; FieldFunction, BinaryFunction and BinaryInfixOperator delegate to
this.get(this.field, ...) — inlined here with the field substituted for
the key, which the delegation lemmas below prove equal to the delegating
form; NullaryFunction returns this.get(); UnaryFunction escapes its fixed
value; OrderFunction appends its direction keyword.  The conditional
classes do not override getField and inherit the abstract throw. -/
def OpNode.getField (env : Env) (o : OpNode) (f : Filter) (opts : Options) :
    Except JsErr String :=
  match o with
  | .rawFn s => .ok s
  | .fieldFn (some fv) => escapeKey env f fv opts
  | .fieldFn none => escapeKey env f .undef opts
  | .nullaryFn _ fn => .ok (fn ++ "()")
  | .unaryFn _ fn (some v) =>
      (escapeKey env f v opts).map (fun k => fn ++ "(" ++ k ++ ")")
  | .unaryFn _ fn none =>
      (escapeKey env f .undef opts).map (fun k => fn ++ "(" ++ k ++ ")")
  | .binaryFn name fn (some fv) value argOrder => do
      let v ← OpNode.evalv env (.binaryFn name fn (some fv) value argOrder) value fv f opts
      let fld ← escapeKey env f fv opts
      .ok (fn ++ "(" ++ (if argOrder = 0 then fld ++ ", " ++ v else v ++ ", " ++ fld) ++ ")")
  | .binaryFn name fn none value argOrder => do
      let v ← OpNode.evalv env (.binaryFn name fn none value argOrder) value .undef f opts
      let fld ← escapeKey env f .undef opts
      .ok (fn ++ "(" ++ (if argOrder = 0 then fld ++ ", " ++ v else v ++ ", " ++ fld) ++ ")")
  | .binArith name fn (some fv) value => do
      let v ← OpNode.evalv env (.binArith name fn (some fv) value) value fv f opts
      let fld ← escapeKey env f fv opts
      .ok (fld ++ " " ++ fn ++ " " ++ v)
  | .binArith name fn none value => do
      let v ← OpNode.evalv env (.binArith name fn none value) value .undef f opts
      let fld ← escapeKey env f .undef opts
      .ok (fld ++ " " ++ fn ++ " " ++ v)
  | .orderFn _ fn field =>
      (escapeKey env f field opts).map (fun k => k ++ " " ++ fn)
  | _ => .error .abstractGetField
termination_by sizeOf o

/-- db.prototype.escapeKey (db-filters.js lines 2470-2486): compute the
optional table or alias qualification prefix, delegate operator keys to
their getField (dropping the prefix), return the wildcard with the prefix
but unquoted, and quote every other key with mysql.escapeId of its string
conversion. -/
def escapeKey (env : Env) (f : Filter) (key : JSVal) (opts : Options) :
    Except JsErr String :=
  let rtn :=
    if opts.useName then
      (if opts.aliasName ≠ "" then escapeId opts.aliasName ++ "." else escapeId f.table ++ ".")
    else ""
  match key with
  | .node o => OpNode.getField env o f opts
  | k =>
      if jsLooseEqStr env k "*" then .ok (rtn ++ jsToString env k)
      else .ok (rtn ++ escapeId (jsToString env k))
termination_by sizeOf key

/-- The rval.map(eval) loop of ArrayCondition.prototype.get: evaluate each
list element with the eval primitive of the enclosing node. -/
def OpNode.evalList (env : Env) (this : OpNode) (xs : List JSVal) (key : JSVal)
    (f : Filter) (opts : Options) : Except JsErr (List String) :=
  match xs with
  | [] => .ok []
  | v :: rest => do
      let t ← OpNode.evalv env this v key f opts
      let ts ← OpNode.evalList env this rest key f opts
      .ok (t :: ts)
termination_by sizeOf xs + sizeOf key

end

/-- The operators.$eq factory of lib/conditionals.js applied to one
argument: new BinaryCondition($eq, =, val, undefined). -/
def dEq (val : JSVal) : OpNode := .binCond "$eq" "=" val none

/-- The operators.$gt factory: new BinaryCondition($gt, >, val, rval). -/
def dGt (val : JSVal) (rval : Option JSVal) : OpNode := .binCond "$gt" ">" val rval

/-- The operators.$in factory applied to one argument:
new ArrayCondition($in, undefined, false, v) — the operand list travels in
the lval field. -/
def dIn (v : JSVal) : OpNode := .arrayCond "$in" none false v

/-- The operators.$in factory applied to two arguments: the first argument
is a free lvalue and the list travels in the rval field. -/
def dIn2 (lval : JSVal) (list : List JSVal) : OpNode := .arrayCond "$in" (some list) false lval

/-- The operators.$not_in factory applied to one argument. -/
def dNotIn (v : JSVal) : OpNode := .arrayCond "$not_in" none true v

/-- The RegexCondition constructor strips the enclosing slashes from a
native RegExp (pattern.toString().substr(1, length-2)); every other
pattern value is stored as given. -/
def regexPattern : JSVal → JSVal
  | .regexp src => .str src
  | v => v

/-- The operators.$regex factory: new RegexCondition($regex, pattern, false). -/
def dRegex (pattern : JSVal) : OpNode := .regexCond "$regex" (regexPattern pattern) false

/-- The operators.$like factory: new LikeCondition($like, pattern, false). -/
def dLike (pattern : JSVal) : OpNode := .likeCond "$like" pattern false

/-- The operators.$not_like factory. -/
def dNotLike (pattern : JSVal) : OpNode := .likeCond "$not_like" pattern true

/-- The operators.$add factory applied to one argument:
new BinaryInfixOperator($add, +, undefined, a1). -/
def dAdd1 (val : JSVal) : OpNode := .binArith "$add" "+" none val

/-- The operators.$add factory applied to two arguments. -/
def dAdd2 (field val : JSVal) : OpNode := .binArith "$add" "+" (some field) val

/-- The operators.$length factory: new UnaryFunction($length, LENGTH, value);
called with no argument the stored value is undefined. -/
def dLength (val : Option JSVal) : OpNode := .unaryFn "$length" "LENGTH" val

/-- The operators.$field factory: new FieldFunction(f). -/
def dField (fv : Option JSVal) : OpNode := .fieldFn fv

/-- The value normalization inside db.prototype.process (db-filters.js
lines 2449-2456): values that are already Conditional or RawFunction
instances pass through; otherwise a plain array becomes db.$in(value), a
RegExp becomes db.$regex(value), and anything else becomes
db.$eq(value). -/
def normalizeValue (value : JSVal) : OpNode :=
  match value with
  | .node o => if o.isConditional || o.isRawFunction then o else dEq (.node o)
  | .arr xs => dIn (.arr xs)
  | .regexp src => dRegex (.regexp src)
  | v => dEq v

/-- db.prototype.process (db-filters.js lines 2444-2459): a key with a
registered special handler delegates entirely to it; otherwise the value
is normalized to an operator node, compiled against the key, and the
resulting term is appended to the output list. -/
def Filter.process (env : Env) (f : Filter) (terms : List String) (opts : Options)
    (value : JSVal) (key : String) : Except JsErr (List String) :=
  match specialLookup f key with
  | some h => .ok (terms ++ h key value opts)
  | none =>
      (OpNode.get env (normalizeValue value) (.str key) f opts).map (fun t => terms ++ [t])

/-- The iteration of db.prototype.decode_filter: process every (key, value)
entry in order, threading the accumulated terms array. -/
def decodeFilterGo (env : Env) (f : Filter) (opts : Options) :
    List (String × JSVal) → List String → Except JsErr (List String)
  | [], acc => .ok acc
  | (k, v) :: rest, acc => do
      let acc2 ← Filter.process env f acc opts v k
      decodeFilterGo env f opts rest acc2

/-- db.prototype.decode_filter (db-filters.js lines 2428-2432): iterate the
params entries in insertion order and join the produced terms with the
separator. -/
def Filter.decode_filter (env : Env) (f : Filter) (params : List (String × JSVal))
    (sep : String) (opts : Options) : Except JsErr String :=
  (decodeFilterGo env f opts params []).map (String.intercalate sep)

/-- db.prototype.where (db-filters.js lines 2400-2405): decode with the
AND separator and prefix a non-empty result with WHERE. -/
def Filter.whereClause (env : Env) (f : Filter) (w : List (String × JSVal))
    (opts : Options) : Except JsErr String := do
  let result ← Filter.decode_filter env f w " AND " opts
  if result.length > 0 then .ok (" WHERE " ++ result) else .ok ""

/-- db.prototype.set (db-filters.js lines 2413-2418): decode with the comma
separator and fresh default options, prefixing a non-empty result with
SET. -/
def Filter.setClause (env : Env) (f : Filter) (values : List (String × JSVal)) :
    Except JsErr String := do
  let result ← Filter.decode_filter env f values ", " {}
  if result.length > 0 then .ok (" SET " ++ result) else .ok ""

/-- The terms one (key, value) entry contributes to the decoded output: a
special handler contributes whatever it appends, any other entry
contributes exactly the one term of its normalized operator.  This is the
per-entry region the decode_filter characterization below is stated
with. -/
def entryTerms (env : Env) (f : Filter) (opts : Options) (kv : String × JSVal) :
    Except JsErr (List String) :=
  match specialLookup f kv.1 with
  | some h => .ok (h kv.1 kv.2 opts)
  | none => (OpNode.get env (normalizeValue kv.2) (.str kv.1) f opts).map (fun t => [t])

/-- Sequential map in the Except monad, used to model the synchronous maps
and forEach loops of the query builders (the JavaScript loops run left to
right and an exception aborts the rest). -/
def mapExcept (g : α → Except JsErr β) : List α → Except JsErr (List β)
  | [] => .ok []
  | x :: rest => do
      let y ← g x
      let ys ← mapExcept g rest
      .ok (y :: ys)

/-- One requested field of a SELECT: either a bare field or the
[field, alias] array form (the alias is appended verbatim, unescaped). -/
inductive FieldSpec where
  | plain (v : JSVal)
  | aliased (v : JSVal) (name : String)

/-- The TableInfo record of lib/queries.js lines 18-27: a participating
table with its resolution options, join kind (empty string for the
primary table), ON entries, field list, filter map and order and group
lists.  ON entries are modelled as index-to-column pair lists, covering
both the array and the object form the source accepts. -/
structure TableInfo where
  filter : Filter
  options : Options
  joinType : String := ""
  onList : List (List (Nat × String)) := []
  fields : List FieldSpec := []
  whereMap : List (String × JSVal) := []
  order : List JSVal := []
  group : List JSVal := []

/-- The builder state shared by the Query classes of lib/queries.js: the
table list (primary table first), the _limit parameter list, and the
values object stored by the Insert and Update constructors. -/
structure QueryState where
  tables : List TableInfo
  limitParams : List Int := []
  values : List (String × JSVal) := []

/-- The Query base constructor (lib/queries.js lines 33-37): one primary
table with unqualified naming and no alias, and an empty limit list. -/
def newQuery (f : Filter) : QueryState :=
  { tables := [{ filter := f, options := { useName := false, aliasName := "" } }]
  , limitParams := []
  , values := [] }

/-- Identifiers bound at module scope in src/lib/queries.js: its two
requires and its top-level function declarations, plus the CommonJS
module locals.  The file never requires or declares db. -/
def libQueriesScope : List String :=
  ["_", "mysql", "TableInfo", "Query", "not_supported",
   "DeleteQuery", "InsertQuery", "UpdateQuery", "SelectQuery",
   "module", "require", "exports", "__dirname", "__filename"]

/-- The body of not_supported (lib/queries.js lines 44-46) starts with
db.log(db.l_error, ...).  Resolving the identifier db searches the
function scope, the module scope and the global object; none of them
binds db, so the call raises ReferenceError before anything is logged. -/
def not_supported_call : Except JsErr Unit :=
  if "db" ∈ libQueriesScope then .ok () else .error (.referenceError "db is not defined")

/-- InsertQuery.prototype.where (lib/queries.js line 169): the method slot
holds not_supported; the builder state is only returned unchanged if the
logging call were to complete. -/
def InsertQuery.whereCall (s : QueryState) (_w : JSVal) : Except JsErr QueryState := do
  let _ ← not_supported_call
  .ok s

/-- InsertQuery.prototype.limit (lib/queries.js line 170): same
not_supported slot. -/
def InsertQuery.limitCall (s : QueryState) (_limits : List Int) : Except JsErr QueryState := do
  let _ ← not_supported_call
  .ok s

/-- Query.prototype.getLimit (lib/queries.js lines 84-89). -/
def Query.getLimit (s : QueryState) : String :=
  if s.limitParams.length > 0 then
    " LIMIT " ++ String.intercalate ", " (s.limitParams.map toString)
  else ""

/-- Query.prototype.getWhere (lib/queries.js lines 76-78): the primary
table decodes its own filter map.  An empty table list would make
this._tables[0] undefined and the member access throw. -/
def Query.getWhere (env : Env) (s : QueryState) : Except JsErr String :=
  match s.tables with
  | [] => .error (.typeError "this._tables[0] is undefined")
  | t :: _ => Filter.whereClause env t.filter t.whereMap t.options

/-- DeleteQuery.prototype.buildQuery (lib/queries.js lines 145-147). -/
def DeleteQuery.buildQuery (env : Env) (s : QueryState) : Except JsErr String :=
  match s.tables with
  | [] => .error (.typeError "this._tables[0] is undefined")
  | t :: _ => do
      let w ← Query.getWhere env s
      .ok ("DELETE FROM " ++ t.filter.table ++ w ++ Query.getLimit s)

/-- InsertQuery.prototype.buildQuery (lib/queries.js lines 176-178). -/
def InsertQuery.buildQuery (env : Env) (s : QueryState) : Except JsErr String :=
  match s.tables with
  | [] => .error (.typeError "this._tables[0] is undefined")
  | t :: _ => do
      let st ← Filter.setClause env t.filter s.values
      .ok ("INSERT INTO " ++ t.filter.table ++ st)

/-- UpdateQuery.prototype.buildQuery (lib/queries.js lines 202-204). -/
def UpdateQuery.buildQuery (env : Env) (s : QueryState) : Except JsErr String :=
  match s.tables with
  | [] => .error (.typeError "this._tables[0] is undefined")
  | t :: _ => do
      let st ← Filter.setClause env t.filter s.values
      let w ← Query.getWhere env s
      .ok ("UPDATE " ++ t.filter.table ++ st ++ w ++ Query.getLimit s)

/-- SelectQuery.prototype.getTableAlias (lib/queries.js lines 398-403). -/
def getTableAlias (t : TableInfo) : String :=
  if t.options.aliasName.length > 0 then t.options.aliasName else t.filter.table

/-- SelectQuery.prototype.getWhere (lib/queries.js lines 411-423): decode
every participating table against its own options, keep the non-empty
results, join them with AND and prefix with WHERE when anything
remains. -/
def SelectQuery.getWhere (env : Env) (s : QueryState) : Except JsErr String := do
  let ws ← mapExcept (fun t =>
    Filter.decode_filter env t.filter t.whereMap " AND " t.options) s.tables
  let whereStr := String.intercalate " AND " (ws.filter (fun w => w.length > 0))
  if whereStr.length > 0 then .ok (" WHERE " ++ whereStr) else .ok ""

/-- SelectQuery.prototype.getGroupBy (lib/queries.js lines 429-443).  The
source concatenates the string GROUP BY with the groups array, which JS
stringifies by joining with a bare comma. -/
def SelectQuery.getGroupBy (env : Env) (s : QueryState) : Except JsErr String := do
  let gs ← mapExcept (fun t => do
    let strs ← mapExcept (fun g => escapeKey env t.filter g t.options) t.group
    pure (String.intercalate ", " strs)) s.tables
  let groups := gs.filter (fun g => g.length > 0)
  if groups.length > 0 then .ok (" GROUP BY " ++ String.intercalate "," groups) else .ok ""

/-- SelectQuery.prototype.getOrderBy (lib/queries.js lines 449-476), with
the same array-to-string comma join as getGroupBy. -/
def SelectQuery.getOrderBy (env : Env) (s : QueryState) : Except JsErr String := do
  let os ← mapExcept (fun t => do
    let strs ← mapExcept (fun o => escapeKey env t.filter o t.options) t.order
    pure (String.intercalate ", " strs)) s.tables
  let order := os.filter (fun o => o.length > 0)
  if order.length > 0 then .ok (" ORDER BY " ++ String.intercalate "," order) else .ok ""

/-- SelectQuery.prototype.getTableFields (lib/queries.js lines 484-494). -/
def SelectQuery.getTableFields (env : Env) (t : TableInfo) : Except JsErr String :=
  if t.fields.length > 0 then
    (mapExcept (fun fs =>
      match fs with
      | FieldSpec.aliased v a =>
          (escapeKey env t.filter v t.options).map (fun k => k ++ " AS " ++ a)
      | FieldSpec.plain v => escapeKey env t.filter v t.options) t.fields).map
      (String.intercalate ", ")
  else
    escapeKey env t.filter (.str "*") t.options

/-- SelectQuery.prototype.getFields (lib/queries.js lines 502-504). -/
def SelectQuery.getFields (env : Env) (s : QueryState) : Except JsErr String :=
  (mapExcept (SelectQuery.getTableFields env) s.tables).map (String.intercalate ", ")

/-- SelectQuery.prototype.getOnClause (lib/queries.js lines 511-527): each
ON entry becomes equalities of table-qualified escaped identifiers, the
table looked up by index in the precomputed name list (an out-of-range
index reads undefined, which escapeId stringifies). -/
def SelectQuery.getOnClause (onList : List (List (Nat × String)))
    (tableNames : List String) : String :=
  if onList.length > 0 then
    " ON " ++ String.intercalate " AND " (onList.map (fun pairs =>
      String.intercalate " = " (pairs.map (fun p =>
        escapeId (tableNames.getD p.1 "undefined") ++ "." ++ escapeId p.2))))
  else ""

/-- SelectQuery.prototype.getTableNameClause (lib/queries.js lines
535-548). -/
def SelectQuery.getTableNameClause (s : QueryState) : String :=
  let tableNames := s.tables.map getTableAlias
  String.intercalate " " (s.tables.map (fun t =>
    let name := t.filter.table ++
      (if t.options.aliasName.length > 0 then " AS " ++ t.options.aliasName else "")
    if t.joinType.length > 0 then
      t.joinType ++ " JOIN " ++ name ++ SelectQuery.getOnClause t.onList tableNames
    else name))

/-- SelectQuery.prototype.buildQuery (lib/queries.js lines 554-556). -/
def SelectQuery.buildQuery (env : Env) (s : QueryState) : Except JsErr String := do
  let flds ← SelectQuery.getFields env s
  let w ← SelectQuery.getWhere env s
  let g ← SelectQuery.getGroupBy env s
  let o ← SelectQuery.getOrderBy env s
  .ok ("SELECT " ++ flds ++ " FROM " ++ SelectQuery.getTableNameClause s ++ w ++ g ++ o ++
    Query.getLimit s)

/-- State-threaded form of Query.prototype.getLimit: the source only reads
this._limit, so the state comes back with the text. -/
def Query.getLimitSt (s : QueryState) : String × QueryState :=
  (Query.getLimit s, s)

/-- State-threaded form of Query.prototype.getWhere. -/
def Query.getWhereSt (env : Env) (s : QueryState) : Except JsErr (String × QueryState) :=
  (Query.getWhere env s).map (fun w => (w, s))

/-- State-threaded form of SelectQuery.prototype.getFields. -/
def SelectQuery.getFieldsSt (env : Env) (s : QueryState) : Except JsErr (String × QueryState) :=
  (SelectQuery.getFields env s).map (fun t => (t, s))

/-- State-threaded form of SelectQuery.prototype.getTableNameClause. -/
def SelectQuery.getTableNameClauseSt (s : QueryState) : String × QueryState :=
  (SelectQuery.getTableNameClause s, s)

/-- State-threaded form of SelectQuery.prototype.getWhere. -/
def SelectQuery.getWhereSt (env : Env) (s : QueryState) : Except JsErr (String × QueryState) :=
  (SelectQuery.getWhere env s).map (fun w => (w, s))

/-- State-threaded form of SelectQuery.prototype.getGroupBy. -/
def SelectQuery.getGroupBySt (env : Env) (s : QueryState) : Except JsErr (String × QueryState) :=
  (SelectQuery.getGroupBy env s).map (fun g => (g, s))

/-- State-threaded form of SelectQuery.prototype.getOrderBy. -/
def SelectQuery.getOrderBySt (env : Env) (s : QueryState) : Except JsErr (String × QueryState) :=
  (SelectQuery.getOrderBy env s).map (fun o => (o, s))

/-- State-threaded form of the setClause read used by Insert and Update. -/
def Filter.setClauseSt (env : Env) (f : Filter) (values : List (String × JSVal))
    (s : QueryState) : Except JsErr (String × QueryState) :=
  (Filter.setClause env f values).map (fun t => (t, s))

/-- SelectQuery.prototype.buildQuery with the builder state threaded
explicitly through every helper, in the evaluation order of the source
expression. -/
def SelectQuery.buildQuerySt (env : Env) (s : QueryState) :
    Except JsErr (String × QueryState) := do
  let (flds, s1) ← SelectQuery.getFieldsSt env s
  let (tnc, s2) := SelectQuery.getTableNameClauseSt s1
  let (w, s3) ← SelectQuery.getWhereSt env s2
  let (g, s4) ← SelectQuery.getGroupBySt env s3
  let (o, s5) ← SelectQuery.getOrderBySt env s4
  let (lim, s6) := Query.getLimitSt s5
  .ok ("SELECT " ++ flds ++ " FROM " ++ tnc ++ w ++ g ++ o ++ lim, s6)

/-- InsertQuery.prototype.buildQuery with the builder state threaded
explicitly. -/
def InsertQuery.buildQuerySt (env : Env) (s : QueryState) :
    Except JsErr (String × QueryState) :=
  match s.tables with
  | [] => .error (.typeError "this._tables[0] is undefined")
  | t :: _ => do
      let (st, s1) ← Filter.setClauseSt env t.filter s.values s
      .ok ("INSERT INTO " ++ t.filter.table ++ st, s1)

/-- UpdateQuery.prototype.buildQuery with the builder state threaded
explicitly. -/
def UpdateQuery.buildQuerySt (env : Env) (s : QueryState) :
    Except JsErr (String × QueryState) :=
  match s.tables with
  | [] => .error (.typeError "this._tables[0] is undefined")
  | t :: _ => do
      let (st, s1) ← Filter.setClauseSt env t.filter s.values s
      let (w, s2) ← Query.getWhereSt env s1
      let (lim, s3) := Query.getLimitSt s2
      .ok ("UPDATE " ++ t.filter.table ++ st ++ w ++ lim, s3)

/-- DeleteQuery.prototype.buildQuery with the builder state threaded
explicitly. -/
def DeleteQuery.buildQuerySt (env : Env) (s : QueryState) :
    Except JsErr (String × QueryState) :=
  match s.tables with
  | [] => .error (.typeError "this._tables[0] is undefined")
  | t :: _ => do
      let (w, s1) ← Query.getWhereSt env s
      let (lim, s2) := Query.getLimitSt s1
      .ok ("DELETE FROM " ++ t.filter.table ++ w ++ lim, s2)

/-- A concrete host environment for evaluating witnesses: new Date of any
value is the epoch date and Date.prototype.toString prints a fixed
non-token text. -/
def env0 : Env :=
  { newDate := fun _ => { year := 1970, month := 0, day := 1, hours := 0, minutes := 0, seconds := 0 }
  , dateToString := fun _ => "Thu Jan 01 1970 00:00:00" }

/-- The users table definition of the test suite (test/select.js lines
10-22), without its special handler. -/
def users : Filter :=
  { table := "users"
  , columns :=
      [("id", .int_t), ("user", .varchar_t 32), ("password", .varchar_t 32),
       ("registered", .datetime_t), ("salt", .varchar_t 8), ("status", .int_t)]
  , special := [] }

/-- The builder state of users.select() with no configuration calls. -/
def usersSelect : QueryState := newQuery users

/-! Helper lemmas. -/

theorem exceptBind_ok (x : α) (g : α → Except JsErr β) :
    (Except.ok x >>= g) = g x := rfl

theorem exceptBind_error (e : JsErr) (g : α → Except JsErr β) :
    ((Except.error e : Except JsErr α) >>= g) = .error e := rfl

theorem exceptMap_ok (g : α → β) (x : α) :
    Except.map g (.ok x : Except JsErr α) = .ok (g x) := rfl

theorem exceptMap_error (g : α → β) (e : JsErr) :
    Except.map g (.error e : Except JsErr α) = .error e := rfl

/-! The next three lemmas discharge the inlining performed in
OpNode.getField: the source delegations this.get(this.field, ...) agree
with the inlined bodies. -/

theorem getField_fieldFn_delegates (env : Env) (fo : Option JSVal) (f : Filter)
    (opts : Options) :
    OpNode.getField env (.fieldFn fo) f opts =
      OpNode.get env (.fieldFn fo) (fo.getD .undef) f opts := by
  cases fo <;> simp [OpNode.getField, OpNode.get]

theorem getField_binaryFn_delegates (env : Env) (name fn : String) (fo : Option JSVal)
    (value : JSVal) (argOrder : Nat) (f : Filter) (opts : Options) :
    OpNode.getField env (.binaryFn name fn fo value argOrder) f opts =
      OpNode.get env (.binaryFn name fn fo value argOrder) (fo.getD .undef) f opts := by
  cases fo <;> simp [OpNode.getField, OpNode.get]

theorem getField_binArith_delegates (env : Env) (name fn : String) (fo : Option JSVal)
    (value : JSVal) (f : Filter) (opts : Options) :
    OpNode.getField env (.binArith name fn fo value) f opts =
      OpNode.get env (.binArith name fn fo value) (fo.getD .undef) f opts := by
  cases fo <;> simp [OpNode.getField, OpNode.get]

/-- process agrees with the per-entry region function entryTerms. -/
theorem process_eq_entryTerms (env : Env) (f : Filter) (terms : List String)
    (opts : Options) (value : JSVal) (key : String) :
    Filter.process env f terms opts value key =
      (entryTerms env f opts (key, value)).map (fun r => terms ++ r) := by
  unfold Filter.process entryTerms
  cases h : specialLookup f key
  · cases hg : OpNode.get env (normalizeValue value) (.str key) f opts <;>
      simp [Except.map]
  · simp [Except.map]

/-- The decode_filter loop produces, for each entry in order, exactly the
entryTerms region of that entry, appended to the accumulator. -/
theorem decodeFilterGo_eq (env : Env) (f : Filter) (opts : Options) :
    ∀ (params : List (String × JSVal)) (acc : List String),
      decodeFilterGo env f opts params acc =
        (mapExcept (entryTerms env f opts) params).map (fun rs => acc ++ rs.flatten) := by
  intro params
  induction params with
  | nil => intro acc; simp [decodeFilterGo, mapExcept, exceptMap_ok]
  | cons kv rest ih =>
      intro acc
      obtain ⟨k, v⟩ := kv
      simp only [decodeFilterGo, process_eq_entryTerms, mapExcept]
      cases h : entryTerms env f opts (k, v) with
      | error e => simp [h, exceptMap_error, exceptBind_error]
      | ok r =>
          simp only [h, exceptMap_ok, exceptBind_ok]
          rw [ih (acc ++ r)]
          cases hrest : mapExcept (entryTerms env f opts) rest <;>
            simp [hrest, exceptMap_ok, exceptMap_error, exceptBind_ok, exceptBind_error,
              List.append_assoc]

/-- decode_filter joins the in-order per-entry regions with the
separator. -/
theorem decode_filter_eq (env : Env) (f : Filter) (params : List (String × JSVal))
    (sep : String) (opts : Options) :
    Filter.decode_filter env f params sep opts =
      (mapExcept (entryTerms env f opts) params).map
        (fun rs => String.intercalate sep rs.flatten) := by
  unfold Filter.decode_filter
  rw [decodeFilterGo_eq]
  cases h : mapExcept (entryTerms env f opts) params <;> simp [Except.map]

/-- A successful mapExcept produces one output per input. -/
theorem mapExcept_ok_length (g : α → Except JsErr β) :
    ∀ (xs : List α) (ys : List β), mapExcept g xs = .ok ys → ys.length = xs.length := by
  intro xs
  induction xs with
  | nil => intro ys h; simp [mapExcept] at h; simp [← h]
  | cons x rest ih =>
      intro ys h
      simp only [mapExcept] at h
      cases hx : g x with
      | error e => rw [hx] at h; simp [exceptBind_error] at h
      | ok y =>
          rw [hx] at h
          cases hrest : mapExcept g rest with
          | error e => rw [hrest] at h; simp [exceptBind_ok, exceptBind_error] at h
          | ok ys2 =>
              rw [hrest] at h
              simp only [exceptBind_ok] at h
              cases h
              simp [ih ys2 hrest]

/-- Every output of a successful mapExcept comes from some input. -/
theorem mapExcept_ok_mem (g : α → Except JsErr β) :
    ∀ (xs : List α) (ys : List β), mapExcept g xs = .ok ys →
      ∀ y ∈ ys, ∃ x ∈ xs, g x = .ok y := by
  intro xs
  induction xs with
  | nil =>
      intro ys h; simp [mapExcept] at h
      intro y hy; subst h; simp at hy
  | cons x rest ih =>
      intro ys h
      simp only [mapExcept] at h
      cases hx : g x with
      | error e => rw [hx] at h; simp [exceptBind_error] at h
      | ok y0 =>
          rw [hx] at h
          cases hrest : mapExcept g rest with
          | error e => rw [hrest] at h; simp [exceptBind_ok, exceptBind_error] at h
          | ok ys2 =>
              rw [hrest] at h
              simp only [exceptBind_ok] at h
              cases h
              intro y hy
              rcases List.mem_cons.mp hy with h1 | h2
              · exact ⟨x, List.mem_cons_self x rest, by rw [hx, h1]⟩
              · obtain ⟨x2, hx2, hgx2⟩ := ih ys2 hrest y h2
                exact ⟨x2, List.mem_cons_of_mem x hx2, hgx2⟩

/-- escapeKey on a plain string key always succeeds. -/
theorem escapeKey_str_ok (env : Env) (f : Filter) (k : String) (opts : Options) :
    ∃ l, escapeKey env f (.str k) opts = .ok l := by
  simp only [escapeKey]
  split <;> exact ⟨_, rfl⟩

/-- C1: for every operand passed to the eval primitive of an enclosing
operator node, an operand that is itself an Operator node is compiled
recursively and the compiled text is wrapped in parentheses if and only
if the enclosing operator carries the require_group flag; the
BinaryInfixOperator (arithmetic infix) constructors set that flag and the
comparison (Conditional) classes leave it false; any non-operator operand
is returned through handle_type canonicalization keyed by the enclosing
column name. -/
theorem C1_eval_operand (env : Env) (this : OpNode) (v key : JSVal) (f : Filter)
    (opts : Options) :
    (∀ o : OpNode, v = .node o →
        OpNode.evalv env this v key f opts =
          (OpNode.get env o key f opts).map
            (fun r => if this.require_group then "(" ++ r ++ ")" else r))
    ∧ (v.isNode = false →
        OpNode.evalv env this v key f opts = .ok (handle_type env f key v))
    ∧ (∀ name fn fieldOpt value,
        OpNode.require_group (.binArith name fn fieldOpt value) = true)
    ∧ (∀ c : OpNode, c.isConditional = true → c.require_group = false) := by
  refine ⟨?_, ?_, ?_, ?_⟩
  · rintro o rfl
    simp [OpNode.evalv]
  · intro hv
    cases v <;> simp_all [JSVal.isNode, OpNode.evalv]
  · intro name fn fieldOpt value; rfl
  · intro c hc
    cases c <;> simp_all [OpNode.isConditional, OpNode.require_group]

/-- Witness for C1: inside the arithmetic operator $add(1) a nested
LENGTH() operand is compiled recursively and parenthesized (require_group
is set), and inside the comparison $eq(5) the scalar operand 5 goes
through handle_type. -/
theorem C1_eval_operand_witness :
    (OpNode.evalv env0 (dAdd1 (.num 1)) (.node (dLength none)) (.str "salt") users {} =
      (OpNode.get env0 (dLength none) (.str "salt") users {}).map
        (fun r => if (dAdd1 (.num 1)).require_group then "(" ++ r ++ ")" else r))
    ∧ (OpNode.evalv env0 (dEq (.num 5)) (.num 5) (.str "id") users {} =
        .ok (handle_type env0 users (.str "id") (.num 5))) := by
  constructor
  · exact (C1_eval_operand env0 (dAdd1 (.num 1)) (.node (dLength none)) (.str "salt")
      users {}).1 (dLength none) rfl
  · exact (C1_eval_operand env0 (dEq (.num 5)) (.num 5) (.str "id") users {}).2.1 rfl

/-- C7: an ArrayMembership node with an empty operand list still compiles:
with no explicit lvalue (rval undefined) the lvalue is the resolved
context column and the emitted text is that column followed by IN () —
or NOT IN () when negated — and compilation succeeds whenever the key is
a plain string; with an explicit lvalue and an empty defined list the
lvalue is evaluated and the same IN () tail is appended. -/
theorem C7_empty_in (env : Env) (f : Filter) (opts : Options) (k name : String)
    (inv : Bool) :
    (OpNode.get env (.arrayCond name none inv (.arr [])) (.str k) f opts =
        (escapeKey env f (.str k) opts).map
          (fun l => l ++ (if inv then " NOT" else "") ++ " IN ()"))
    ∧ (∃ l, escapeKey env f (.str k) opts = .ok l ∧
        OpNode.get env (.arrayCond name none inv (.arr [])) (.str k) f opts =
          .ok (l ++ (if inv then " NOT" else "") ++ " IN ()"))
    ∧ (∀ lv, OpNode.get env (.arrayCond name (some []) inv lv) (.str k) f opts =
        (OpNode.evalv env (.arrayCond name (some []) inv lv) lv (.str k) f opts).map
          (fun l => l ++ (if inv then " NOT" else "") ++ " IN ()")) := by
  have hmain : OpNode.get env (.arrayCond name none inv (.arr [])) (.str k) f opts =
      (escapeKey env f (.str k) opts).map
        (fun l => l ++ (if inv then " NOT" else "") ++ " IN ()") := by
    cases h : escapeKey env f (.str k) opts with
    | error e =>
        simp [OpNode.get, h, exceptMap_error, exceptBind_error]
    | ok l =>
        simp only [OpNode.get, h, exceptBind_ok, OpNode.evalList, exceptMap_ok]
        rw [show String.intercalate ", " ([] : List String) = "" from rfl,
          String.append_empty, String.append_assoc]
        rfl
  refine ⟨hmain, ?_, ?_⟩
  · obtain ⟨l, hl⟩ := escapeKey_str_ok env f k opts
    exact ⟨l, hl, by rw [hmain, hl]; rfl⟩
  · intro lv
    cases h : OpNode.evalv env (.arrayCond name (some []) inv lv) lv (.str k) f opts with
    | error e => simp [OpNode.get, h, exceptMap_error, exceptBind_error]
    | ok l =>
        simp only [OpNode.get, h, exceptBind_ok, OpNode.evalList, exceptMap_ok]
        rw [show String.intercalate ", " ([] : List String) = "" from rfl,
          String.append_empty, String.append_assoc]
        rfl

/-- C3: the clause decoder emits one term region per filter-map entry, in
the insertion order of the map, and joins the flattened terms with the
given separator; when no entry has a special handler each region is a
single term, so there is exactly one term per entry; in particular a
WHERE filter whose three entries compile to terms ta, tb, tc produces
exactly WHERE ta AND tb AND tc. -/
theorem C3_decode_order (env : Env) (f : Filter) (opts : Options)
    (params : List (String × JSVal)) (sep : String) (ts : List (List String))
    (h : mapExcept (entryTerms env f opts) params = .ok ts) :
    (Filter.decode_filter env f params sep opts =
        .ok (String.intercalate sep ts.flatten))
    ∧ ts.length = params.length
    ∧ ((∀ kv ∈ params, specialLookup f kv.1 = none) → ∀ r ∈ ts, r.length = 1)
    ∧ (∀ ta tb tc, ts.flatten = [ta, tb, tc] →
        Filter.whereClause env f params opts =
          .ok (" WHERE " ++ ta ++ " AND " ++ tb ++ " AND " ++ tc)) := by
  refine ⟨?_, mapExcept_ok_length _ params ts h, ?_, ?_⟩
  · rw [decode_filter_eq, h]; rfl
  · intro hns r hr
    obtain ⟨kv, hkv, hek⟩ := mapExcept_ok_mem _ params ts h r hr
    rw [entryTerms, hns kv hkv] at hek
    cases hg : OpNode.get env (normalizeValue kv.2) (.str kv.1) f opts with
    | error e => rw [hg] at hek; exact absurd hek (by simp [exceptMap_error])
    | ok t =>
        rw [hg] at hek
        simp only [exceptMap_ok, Except.ok.injEq] at hek
        simp [← hek]
  · intro ta tb tc hflat
    have hdec : Filter.decode_filter env f params " AND " opts =
        .ok (String.intercalate " AND " ts.flatten) := by
      rw [decode_filter_eq, h]; rfl
    rw [hflat] at hdec
    have hinter : String.intercalate " AND " [ta, tb, tc] =
        ta ++ " AND " ++ tb ++ " AND " ++ tc := rfl
    rw [hinter] at hdec
    rw [Filter.whereClause, hdec, exceptBind_ok]
    have h5 : (" AND " : String).length = 5 := rfl
    have hlen : (ta ++ " AND " ++ tb ++ " AND " ++ tc).length > 0 := by
      simp only [String.length_append, h5, gt_iff_lt]
      omega
    rw [if_pos hlen]
    simp [String.append_assoc]

set_option maxRecDepth 4000 in
/-- Witness for C3: the users table with the three-entry filter map
id = 1, user = greg, status = 2 produces the WHERE clause with the terms
in exactly that order joined by AND. -/
theorem C3_decode_order_witness :
    Filter.whereClause env0 users
        [("id", .num 1), ("user", .str "greg"), ("status", .num 2)] {} =
      .ok (" WHERE " ++ "`id` = 1" ++ " AND " ++
        ("`user` = " ++ sqs ++ "greg" ++ sqs) ++ " AND " ++ "`status` = 2") := by
  have h : mapExcept (entryTerms env0 users {})
      [("id", .num 1), ("user", .str "greg"), ("status", .num 2)] =
      .ok [["`id` = 1"], ["`user` = " ++ sqs ++ "greg" ++ sqs], ["`status` = 2"]] := by
    simp only [mapExcept, entryTerms, normalizeValue, dEq, specialLookup,
      OpNode.get, OpNode.evalv, escapeKey]
    rfl
  exact (C3_decode_order env0 users {} _ " AND " _ h).2.2.2
    "`id` = 1" ("`user` = " ++ sqs ++ "greg" ++ sqs) "`status` = 2" rfl

set_option maxRecDepth 4000 in
/-- C2 counterexample: the node-normalizing clause decoder of
db-filters.js lines 2444-2459 has no branch for the Like wrapper class
(that class is only handled by the older inline decoder at lines
672-694), so a Like-wrapper value for the key user falls through to the
$eq branch and compiles to an equality term — the stringified wrapper
object quoted as a literal — not to the LIKE pattern-match the claim
requires. -/
theorem C2_counterexample :
    (Filter.process env0 users [] {} (.likeObj "%bob%") "user" =
        .ok ["`user` = " ++ sqs ++ "[object Object]" ++ sqs])
    ∧ (OpNode.get env0 (dLike (.str "%bob%")) (.str "user") users {} =
        .ok ("`user` LIKE " ++ sqs ++ "%bob%" ++ sqs))
    ∧ ("`user` = " ++ sqs ++ "[object Object]" ++ sqs : String) ≠
        "`user` LIKE " ++ sqs ++ "%bob%" ++ sqs := by
  refine ⟨?_, ?_, ?_⟩
  · simp only [Filter.process, specialLookup, normalizeValue, dEq,
      OpNode.get, OpNode.evalv, escapeKey]
    rfl
  · simp only [dLike, OpNode.get, escapeKey]
    rfl
  · decide

/-- C2 (amended): for every entry whose key has no special handler, the
decoder of db-filters.js lines 2444-2459 compiles the normalization of
the value against the key and appends the single resulting term; the
normalization sends a plain array to ArrayMembership ($in), a RegExp to
the REGEXP pattern-match ($regex), keeps Conditional and RawFunction
nodes, and sends every other value — Like-wrapper objects included,
since this decoder has no Like branch — to the equality comparison
($eq). -/
theorem C2_decode_normalization (env : Env) (f : Filter) (opts : Options)
    (terms : List String) (key : String) (value : JSVal)
    (hspec : specialLookup f key = none) :
    (Filter.process env f terms opts value key =
        (OpNode.get env (normalizeValue value) (.str key) f opts).map
          (fun t => terms ++ [t]))
    ∧ (∀ xs, normalizeValue (.arr xs) = dIn (.arr xs))
    ∧ (∀ src, normalizeValue (.regexp src) = dRegex (.regexp src))
    ∧ (∀ o : OpNode, o.isConditional = false → o.isRawFunction = false →
        normalizeValue (.node o) = dEq (.node o))
    ∧ (value.isNode = false → (∀ xs, value ≠ .arr xs) → (∀ src, value ≠ .regexp src) →
        normalizeValue value = dEq value) := by
  refine ⟨?_, fun xs => rfl, fun src => rfl, ?_, ?_⟩
  · rw [Filter.process, hspec]
  · intro o h1 h2
    simp [normalizeValue, h1, h2]
  · intro h1 h2 h3
    cases value with
    | arr xs => exact absurd rfl (h2 xs)
    | regexp src => exact absurd rfl (h3 src)
    | node o => simp [JSVal.isNode] at h1
    | _ => rfl

set_option maxRecDepth 4000 in
/-- Witness for C2 (amended) at the counterexample input: the users table
has no special handler for user, and the Like-wrapper value is normalized
to the $eq node and its single compiled term appended. -/
theorem C2_decode_normalization_witness :
    (Filter.process env0 users [] {} (.likeObj "%bob%") "user" =
        (OpNode.get env0 (normalizeValue (.likeObj "%bob%")) (.str "user") users {}).map
          (fun t => [] ++ [t]))
    ∧ normalizeValue (.likeObj "%bob%") = dEq (.likeObj "%bob%") := by
  have h := C2_decode_normalization env0 users {} [] "user" (.likeObj "%bob%") rfl
  exact ⟨h.1, h.2.2.2.2 rfl (fun xs heq => nomatch heq) (fun src heq => nomatch heq)⟩

/-- C4: escapeKey on a plain column name: with useName set the key is
prefixed by the quoted alias when the alias is non-empty, otherwise by
the quoted table name, followed by a dot, and the identifier itself is
quoted; the wildcard star keeps the same optional prefix but is emitted
unquoted; with useName unset the result is just the quoted identifier
(and the bare star for the wildcard). -/
theorem C4_escapeKey (env : Env) (f : Filter) (k : String) (opts : Options) :
    (opts.useName = true → opts.aliasName ≠ "" → k ≠ "*" →
        escapeKey env f (.str k) opts = .ok (escapeId opts.aliasName ++ "." ++ escapeId k))
    ∧ (opts.useName = true → opts.aliasName = "" → k ≠ "*" →
        escapeKey env f (.str k) opts = .ok (escapeId f.table ++ "." ++ escapeId k))
    ∧ (opts.useName = true → opts.aliasName ≠ "" →
        escapeKey env f (.str "*") opts = .ok (escapeId opts.aliasName ++ "." ++ "*"))
    ∧ (opts.useName = true → opts.aliasName = "" →
        escapeKey env f (.str "*") opts = .ok (escapeId f.table ++ "." ++ "*"))
    ∧ (opts.useName = false → k ≠ "*" →
        escapeKey env f (.str k) opts = .ok (escapeId k))
    ∧ (opts.useName = false → escapeKey env f (.str "*") opts = .ok "*") := by
  refine ⟨?_, ?_, ?_, ?_, ?_, ?_⟩ <;> intro h1 <;>
    first
      | (intro h2 h3;
         simp [escapeKey, h1, h2, h3, jsLooseEqStr, jsToString, String.append_assoc])
      | (intro h2;
         simp [escapeKey, h1, h2, jsLooseEqStr, jsToString, String.append_assoc])
      | simp [escapeKey, h1, jsLooseEqStr, jsToString, String.append_assoc]

/-- Witness for C4: qualified naming with the alias p quotes the alias and
the identifier; unqualified naming leaves the wildcard bare. -/
theorem C4_escapeKey_witness :
    escapeKey env0 users (.str "id") { useName := true, aliasName := "p" } =
      .ok (escapeId "p" ++ "." ++ escapeId "id")
    ∧ escapeKey env0 users (.str "*") { useName := false, aliasName := "" } = .ok "*" := by
  constructor
  · exact (C4_escapeKey env0 users "id"
      { useName := true, aliasName := "p" }).1 rfl (by decide) (by decide)
  · exact (C4_escapeKey env0 users "*"
      { useName := false, aliasName := "" }).2.2.2.2.2 rfl

/-- C5 (code bug): db.prototype.clone keeps the table name and the special
handlers and starts with fresh execution-time state (no connection, empty
query statistics), but it passes this.cols — a property never assigned
anywhere, the constructor stores the columns in this.columns — so the
constructor falls back to an empty column map: the clone of the users
table loses all six column type declarations. -/
theorem C5_clone_drops_columns :
    (users.clone).table = users.table
    ∧ (users.clone).special = users.special
    ∧ (users.clone).queries = [] ∧ (users.clone).conn = none
    ∧ (users.clone).columns = []
    ∧ users.columns ≠ [] :=
  ⟨rfl, rfl, rfl, rfl, rfl, by decide⟩

/-- C6 (code bug): InsertQuery.where and InsertQuery.limit are the
not_supported slot, whose body starts with db.log(db.l_error, ...);
lib/queries.js binds only underscore and mysql at module scope and never
declares db, so the identifier lookup fails and the call throws
ReferenceError: db is not defined — it does not log and does not return;
the claim (and the doc comment above not_supported) say the call only
logs and never throws. -/
theorem C6_insert_where_throws :
    InsertQuery.whereCall (newQuery users) (.num 1) =
        .error (.referenceError "db is not defined")
    ∧ InsertQuery.limitCall (newQuery users) [1] =
        .error (.referenceError "db is not defined")
    ∧ not_supported_call = .error (.referenceError "db is not defined") := by
  have h : not_supported_call = .error (.referenceError "db is not defined") := rfl
  exact ⟨by simp [InsertQuery.whereCall, h, exceptBind_error],
    by simp [InsertQuery.limitCall, h, exceptBind_error], h⟩

/-- C8: for a column declared with the integer type, handle_type returns
the decimal text of the parseInt parse of the value, and the text 0
whenever the parse fails (the || 0 fallback); it never throws —
handle_type is a total String-valued function, and the third conjunct
gives its value on every input. -/
theorem C8_int_type (env : Env) (f : Filter) (col : String) (value : JSVal)
    (h : colTypeLookup env f (.str col) = some .int_t) :
    (∀ n, parseIntVal env value = some n →
        handle_type env f (.str col) value = toString n)
    ∧ (parseIntVal env value = none → handle_type env f (.str col) value = "0")
    ∧ handle_type env f (.str col) value = toString ((parseIntVal env value).getD 0) := by
  refine ⟨?_, ?_, ?_⟩
  · intro n hn
    rw [handle_type, h]
    simp [hn]
  · intro hn
    rw [handle_type, h]
    simp [hn]
  · rw [handle_type, h]
    cases hn : parseIntVal env value
    · simp [hn]
      rfl
    · simp [hn]

/-- Witness for C8: on the int-typed id column of the users table the
non-numeric string abc coerces to 0 and the numeric string 42 parses to
42. -/
theorem C8_int_type_witness :
    colTypeLookup env0 users (.str "id") = some .int_t
    ∧ handle_type env0 users (.str "id") (.str "abc") = "0"
    ∧ handle_type env0 users (.str "id") (.str "42") = "42" := by
  have h : colTypeLookup env0 users (.str "id") = some .int_t := rfl
  exact ⟨h, (C8_int_type env0 users "id" (.str "abc") h).2.1 rfl,
    (C8_int_type env0 users "id" (.str "42") h).1 42 rfl⟩

/-- C9: handle_date returns the exact tokens CURDATE() and CURRENT_DATE()
verbatim and unescaped; a Date value is formatted as year, month plus
one, and day joined by hyphens with no zero padding; any other value is
first coerced with new Date and then formatted the same way (the
conjuncts about real Date values assume the host toString of the date is
not itself one of the passthrough tokens, which the actual
Date.prototype.toString format never produces). -/
theorem C9_handle_date (env : Env) :
    (handle_date env (.str "CURDATE()") = "CURDATE()")
    ∧ (handle_date env (.str "CURRENT_DATE()") = "CURRENT_DATE()")
    ∧ (∀ d : JSDate, env.dateToString d ≠ "CURDATE()" →
        env.dateToString d ≠ "CURRENT_DATE()" →
        handle_date env (.date d) =
          toString d.year ++ "-" ++ toString (d.month + 1) ++ "-" ++ toString d.day)
    ∧ (∀ v : JSVal, v.isDate = false →
        jsLooseEqStr env v "CURDATE()" = false →
        jsLooseEqStr env v "CURRENT_DATE()" = false →
        env.dateToString (env.newDate v) ≠ "CURDATE()" →
        env.dateToString (env.newDate v) ≠ "CURRENT_DATE()" →
        handle_date env v = fmtYMD (env.newDate v)) := by
  refine ⟨rfl, rfl, ?_, ?_⟩
  · intro d h1 h2
    simp [handle_date, jsLooseEqStr, h1, h2, fmtYMD]
  · intro v hd h1 h2 h3 h4
    cases v <;>
      simp_all [handle_date, handle_date_on_date, JSVal.isDate, fmtYMD]

/-- Witness for C9: the epoch-toString environment env0 never produces the
tokens, so a concrete Date formats as 2013-5-5 (May 5 with no padding)
and the number 0 is coerced through new Date and formatted. -/
theorem C9_handle_date_witness :
    handle_date env0 (.str "CURDATE()") = "CURDATE()"
    ∧ handle_date env0
        (.date { year := 2013, month := 4, day := 5, hours := 0, minutes := 0, seconds := 0 }) =
        "2013-5-5"
    ∧ handle_date env0 (.num 0) = fmtYMD (env0.newDate (.num 0)) := by
  refine ⟨(C9_handle_date env0).1, ?_, ?_⟩
  · have h := (C9_handle_date env0).2.2.1
      { year := 2013, month := 4, day := 5, hours := 0, minutes := 0, seconds := 0 }
      (by decide) (by decide)
    rw [h]
    rfl
  · exact (C9_handle_date env0).2.2.2 (.num 0) rfl rfl rfl (by decide) (by decide)

/-- The state-threaded SELECT builder returns exactly the text of the
read-only builder paired with its input state: the source helpers only
read this. -/
theorem selectBuildSt_eq (env : Env) (s : QueryState) :
    SelectQuery.buildQuerySt env s =
      (SelectQuery.buildQuery env s).map (fun t => (t, s)) := by
  simp only [SelectQuery.buildQuerySt, SelectQuery.buildQuery, SelectQuery.getFieldsSt,
    SelectQuery.getTableNameClauseSt, SelectQuery.getWhereSt, SelectQuery.getGroupBySt,
    SelectQuery.getOrderBySt, Query.getLimitSt]
  cases h1 : SelectQuery.getFields env s <;>
    simp only [h1, exceptMap_ok, exceptMap_error, exceptBind_ok, exceptBind_error]
  cases h2 : SelectQuery.getWhere env s <;>
    simp only [h2, exceptMap_ok, exceptMap_error, exceptBind_ok, exceptBind_error]
  cases h3 : SelectQuery.getGroupBy env s <;>
    simp only [h3, exceptMap_ok, exceptMap_error, exceptBind_ok, exceptBind_error]
  cases h4 : SelectQuery.getOrderBy env s <;>
    simp only [h4, exceptMap_ok, exceptMap_error, exceptBind_ok, exceptBind_error]

/-- The state-threaded INSERT builder returns the read-only text paired
with its input state. -/
theorem insertBuildSt_eq (env : Env) (s : QueryState) :
    InsertQuery.buildQuerySt env s =
      (InsertQuery.buildQuery env s).map (fun t => (t, s)) := by
  simp only [InsertQuery.buildQuerySt, InsertQuery.buildQuery, Filter.setClauseSt]
  cases s.tables with
  | nil => rfl
  | cons t rest =>
      cases h1 : Filter.setClause env t.filter s.values <;>
        simp only [h1, exceptMap_ok, exceptMap_error, exceptBind_ok, exceptBind_error]

/-- The state-threaded UPDATE builder returns the read-only text paired
with its input state. -/
theorem updateBuildSt_eq (env : Env) (s : QueryState) :
    UpdateQuery.buildQuerySt env s =
      (UpdateQuery.buildQuery env s).map (fun t => (t, s)) := by
  simp only [UpdateQuery.buildQuerySt, UpdateQuery.buildQuery, Filter.setClauseSt,
    Query.getWhereSt, Query.getLimitSt]
  cases s.tables with
  | nil => rfl
  | cons t rest =>
      cases h1 : Filter.setClause env t.filter s.values <;>
        simp only [h1, exceptMap_ok, exceptMap_error, exceptBind_ok, exceptBind_error]
      cases h2 : Query.getWhere env s <;>
        simp only [h2, exceptMap_ok, exceptMap_error, exceptBind_ok, exceptBind_error]

/-- The state-threaded DELETE builder returns the read-only text paired
with its input state. -/
theorem deleteBuildSt_eq (env : Env) (s : QueryState) :
    DeleteQuery.buildQuerySt env s =
      (DeleteQuery.buildQuery env s).map (fun t => (t, s)) := by
  simp only [DeleteQuery.buildQuerySt, DeleteQuery.buildQuery, Query.getWhereSt,
    Query.getLimitSt]
  cases s.tables with
  | nil => rfl
  | cons t rest =>
      cases h2 : Query.getWhere env s <;>
        simp only [h2, exceptMap_ok, exceptMap_error, exceptBind_ok, exceptBind_error]

/-- C10: for each of the four query builders, buildQuery is a pure
function of the current builder state: a successful build returns the
state unchanged, and rebuilding from that state yields the identical SQL
text (so calling buildQuery twice with no intervening modification is
idempotent and side-effect free). -/
theorem C10_buildQuery_pure (env : Env) (s : QueryState) :
    (∀ t s2, SelectQuery.buildQuerySt env s = .ok (t, s2) →
        s2 = s ∧ SelectQuery.buildQuerySt env s2 = .ok (t, s2))
    ∧ (∀ t s2, InsertQuery.buildQuerySt env s = .ok (t, s2) →
        s2 = s ∧ InsertQuery.buildQuerySt env s2 = .ok (t, s2))
    ∧ (∀ t s2, UpdateQuery.buildQuerySt env s = .ok (t, s2) →
        s2 = s ∧ UpdateQuery.buildQuerySt env s2 = .ok (t, s2))
    ∧ (∀ t s2, DeleteQuery.buildQuerySt env s = .ok (t, s2) →
        s2 = s ∧ DeleteQuery.buildQuerySt env s2 = .ok (t, s2)) := by
  refine ⟨?_, ?_, ?_, ?_⟩ <;> intro t s2 h
  · rw [selectBuildSt_eq] at h
    cases hb : SelectQuery.buildQuery env s with
    | error e => rw [hb] at h; exact absurd h (by simp [exceptMap_error])
    | ok txt =>
        rw [hb] at h
        simp only [exceptMap_ok, Except.ok.injEq, Prod.mk.injEq] at h
        obtain ⟨rfl, rfl⟩ := h
        exact ⟨rfl, by rw [selectBuildSt_eq, hb]; rfl⟩
  · rw [insertBuildSt_eq] at h
    cases hb : InsertQuery.buildQuery env s with
    | error e => rw [hb] at h; exact absurd h (by simp [exceptMap_error])
    | ok txt =>
        rw [hb] at h
        simp only [exceptMap_ok, Except.ok.injEq, Prod.mk.injEq] at h
        obtain ⟨rfl, rfl⟩ := h
        exact ⟨rfl, by rw [insertBuildSt_eq, hb]; rfl⟩
  · rw [updateBuildSt_eq] at h
    cases hb : UpdateQuery.buildQuery env s with
    | error e => rw [hb] at h; exact absurd h (by simp [exceptMap_error])
    | ok txt =>
        rw [hb] at h
        simp only [exceptMap_ok, Except.ok.injEq, Prod.mk.injEq] at h
        obtain ⟨rfl, rfl⟩ := h
        exact ⟨rfl, by rw [updateBuildSt_eq, hb]; rfl⟩
  · rw [deleteBuildSt_eq] at h
    cases hb : DeleteQuery.buildQuery env s with
    | error e => rw [hb] at h; exact absurd h (by simp [exceptMap_error])
    | ok txt =>
        rw [hb] at h
        simp only [exceptMap_ok, Except.ok.injEq, Prod.mk.injEq] at h
        obtain ⟨rfl, rfl⟩ := h
        exact ⟨rfl, by rw [deleteBuildSt_eq, hb]; rfl⟩

set_option maxRecDepth 4000 in
/-- Witness for C10: the unconfigured users.select() builder compiles to
SELECT * FROM users, leaves its state untouched, and rebuilding from the
returned state yields the same text. -/
theorem C10_buildQuery_pure_witness :
    SelectQuery.buildQuerySt env0 usersSelect = .ok ("SELECT * FROM users", usersSelect) := by
  have hb : SelectQuery.buildQuerySt env0 usersSelect =
      .ok ("SELECT * FROM users", usersSelect) := by
    simp only [SelectQuery.buildQuerySt, SelectQuery.getFieldsSt, SelectQuery.getFields,
      SelectQuery.getTableFields, SelectQuery.getTableNameClauseSt, SelectQuery.getWhereSt,
      SelectQuery.getWhere, SelectQuery.getGroupBySt, SelectQuery.getGroupBy,
      SelectQuery.getOrderBySt, SelectQuery.getOrderBy, Query.getLimitSt, mapExcept,
      escapeKey]
    rfl
  exact ((C10_buildQuery_pure env0 usersSelect).1 "SELECT * FROM users" usersSelect hb).2

end DbFilters
